import Mathlib

/-!
Verification of `update_clearance.py`: a shallow embedding, in Lean 4, of the clearance-stock ETL script
`src/update_clearance.py`, together with theorems settling the claims of
the natural-language specification against it.

Modelling conventions:
* Python strings are `List Char` (ASCII fragment: `str.strip`, `str.lower`
  and the regex class `[,\s]` are modelled on their ASCII behaviour, which
  covers every string the claims mention).
* A parsed sheet is a `List Row`, a row being a list of cells, exactly
  the value the Python code iterates over after `list(reader)`. The
  reading stage itself (`csv.reader` over `StringIO`, lines 65-66) is
  modelled by `csvRows`/`csvReadE` on the quote- and carriage-return-free
  fragment of the default dialect, including the csv module's
  field-size-limit error path, which `parse_clearance_csv` does not
  catch.
* Python `dict` literals preserve insertion order, so `CATEGORY_MAP` is an
  ordered association list.
* Python exceptions from list indexing are modelled by an `Except Unit`
  monad (`pyGet`); `int()`'s `ValueError` is caught inside `parse_int`
  in the source, so `parse_int` is total.
* `int(s)` is modelled for an optional sign followed by decimal digits
  (underscore grouping, which no claim involves, is treated as a parse
  failure).
* `main`'s fetch and file write are I/O; its pure core is `mainRun`,
  a function from the fetch result (`none` for a failed fetch or falsy
  empty content) to the exit code and the written document.
-/

namespace Clearance

abbrev Str := List Char

abbrev Row := List Str

/-- The ASCII characters matched by Python's `str.strip()` / regex `\s`. -/
def pySpace (c : Char) : Bool :=
  c = ' ' || c = '\t' || c = '\n' || c = '\r' || c = '\x0b' || c = '\x0c'

/-- Remove a maximal whitespace suffix (Python `str.rstrip()`). -/
def dropTrail : Str → Str
  | [] => []
  | c :: t =>
    let t' := dropTrail t
    if t' = [] then (if pySpace c then [] else [c]) else c :: t'

/-- Python `str.strip()`: drop leading and trailing whitespace. -/
def pyStrip (s : Str) : Str := dropTrail (s.dropWhile pySpace)

/-- The character map underlying `str.replace('\n', ' ')`. -/
def nlToSp (c : Char) : Char := if c = '\n' then ' ' else c

/-- Python `s.replace('\n', ' ')`. -/
def replNl (s : Str) : Str := s.map nlToSp

/-- Python `str.lower()` (ASCII fragment). -/
def pyLower (s : Str) : Str := s.map Char.toLower

/-- Python `needle in hay` for strings: substring occurrence. -/
def hasSubstr (needle : Str) : Str → Bool
  | [] => needle = []
  | c :: t => needle.isPrefixOf (c :: t) || hasSubstr needle t

/-- The category alias dict `CATEGORY_MAP`, in its declared (insertion)
order, from `update_clearance.py` lines 20-34. -/
def CATEGORY_MAP : List (Str × Str) :=
  [ ("Area Light".data, "Area Light".data),
    ("AL2".data, "Area Light".data),
    ("AL2N".data, "Area Light".data),
    ("Twin Lens High Bay".data, "Linear High Bay".data),
    ("Limited Stock - Linear High Bay".data, "Linear High Bay".data),
    ("Limited Stock - High Bay - Linear Fixtures".data, "Linear High Bay".data),
    ("High Bay - Round Limited Stock".data, "Round High Bay".data),
    ("HBU3 Accessories".data, "Round High Bay".data),
    ("PT-WAA Series -".data, "Wraparound".data),
    ("Limited Stock Strip Light".data, "Strip Light".data),
    ("LSFA".data, "Strip Light".data),
    ("Accessories".data, "Accessories".data),
    ("Limited Stock - Vapor Tight".data, "Vaportight".data) ]

/-- The test `key.lower() in raw_category.lower()` from the loop body of
`map_category`. -/
def aliasMatches (key raw : Str) : Bool := hasSubstr (pyLower key) (pyLower raw)

/-- Function `map_category` (lines 36-41): first alias in declared order whose text
occurs case-insensitively in the raw label wins; no match returns the raw
label unchanged. -/
def map_category (raw : Str) : Str :=
  match CATEGORY_MAP.find? (fun kv => aliasMatches kv.1 raw) with
  | some kv => kv.2
  | none => raw

/-- The character class `[,\s]` removed by `re.sub` in `parse_int`. -/
def stripped (c : Char) : Bool := c = ',' || pySpace c

/-- Python `re.sub(r'[,\s]', '', s)`. -/
def cleanStr (s : Str) : Str := s.filter (fun c => !stripped c)

/-- ASCII decimal digit test. -/
def isDigitC (c : Char) : Bool := 48 ≤ c.toNat && c.toNat ≤ 57

/-- Numeric value of an ASCII digit. -/
def digitVal (c : Char) : Nat := c.toNat - 48

/-- Value of a digit string, most significant first. -/
def digitsToNat (l : Str) : Nat := l.foldl (fun a c => 10 * a + digitVal c) 0

/-- A non-empty all-digit string parses to its value. -/
def digits? (l : Str) : Option Nat :=
  if l ≠ [] ∧ l.all isDigitC then some (digitsToNat l) else none

/-- Python `int(s)` on an already-whitespace-free string: optional sign,
then a non-empty run of decimal digits; `none` models `ValueError`. -/
def pyInt? (s : Str) : Option Int :=
  match s with
  | [] => none
  | c :: rest =>
    if c = '-' then (digits? rest).map (fun n => -(n : Int))
    else if c = '+' then (digits? rest).map (fun n => (n : Int))
    else (digits? s).map (fun n => (n : Int))

/-- Function `parse_int` (lines 53-61): falsy input gives 0; otherwise commas and
whitespace are removed and `int()` is attempted, `ValueError` giving 0. -/
def parse_int (s : Str) : Int :=
  if s = [] then 0
  else
    match pyInt? (cleanStr s) with
    | some n => n
    | none => 0

/-- ASCII digit character of `n < 10`. -/
def digitOf (n : Nat) : Char :=
  match n with
  | 0 => '0' | 1 => '1' | 2 => '2' | 3 => '3' | 4 => '4'
  | 5 => '5' | 6 => '6' | 7 => '7' | 8 => '8' | _ => '9'

/-- Decimal digit string of a natural number. -/
def natToDigits (n : Nat) : Str :=
  if _h : n < 10 then [digitOf n]
  else natToDigits (n / 10) ++ [digitOf (n % 10)]
termination_by n
decreasing_by
  exact Nat.div_lt_self (by omega) (by omega)

/-- Python `str(i)` for an integer. -/
def intToStr (i : Int) : Str :=
  if i < 0 then '-' :: natToDigits i.natAbs else natToDigits i.natAbs

/-- The two loop variables of `parse_clearance_csv`. -/
structure ParseState where
  cat : Str
  sub : Str
deriving DecidableEq

/-- One emitted product record (the dict built at lines 127-141). -/
structure Product where
  sku : Str
  description : Str
  wattage : Str
  category : Str
  subcategory : Str
  ontario : Int
  louisville : Int
  phoenix : Int
  dallas : Int
  chicago : Int
  total : Int
  notes : Str
  spec_url : Str
deriving DecidableEq

/-- Python `row[0].strip() if row[0] else ""` (line 101). -/
def firstColOf (row : Row) : Str :=
  if row.headD [] = [] then [] else pyStrip (row.headD [])

/-- Python `row[1].strip() if len(row) > 1 and row[1] else ""` (line 102). -/
def skuColOf (row : Row) : Str :=
  if 1 < row.length ∧ row.getD 1 [] ≠ [] then pyStrip (row.getD 1 []) else []

/-- Python `row[i].strip() if len(row) > i else ""` (lines 129, 130, 139). -/
def colStr (row : Row) (i : Nat) : Str :=
  if i < row.length then pyStrip (row.getD i []) else []

/-- Python `parse_int(row[i] if len(row) > i else "0")` (lines 133-138). -/
def colNum (row : Row) (i : Nat) : Int :=
  parse_int (if i < row.length then row.getD i [] else ['0'])

/-- The spec-URL filter (lines 121-125): kept only when column 11 exists,
trims non-empty, differs from `#N/A` and starts with `http`. -/
def specUrlOf (row : Row) : Str :=
  if 11 < row.length then
    if pyStrip (row.getD 11 []) ≠ [] ∧ pyStrip (row.getD 11 []) ≠ "#N/A".data ∧
        "http".data.isPrefixOf (pyStrip (row.getD 11 [])) then
      pyStrip (row.getD 11 [])
    else []
  else []

/-- The product dict of lines 127-141, for loop state `st` and SKU `sku`. -/
def mkProduct (st : ParseState) (sku : Str) (row : Row) : Product where
  sku := sku
  description := colStr row 2
  wattage := colStr row 3
  category := if st.cat ≠ [] then map_category st.cat else map_category st.sub
  subcategory := st.sub
  ontario := colNum row 4
  louisville := colNum row 5
  phoenix := colNum row 6
  dallas := colNum row 7
  chicago := colNum row 8
  total := colNum row 9
  notes := colStr row 10
  spec_url := specUrlOf row

/-- One iteration of the row loop (lines 97-142): the updated state and
the product emitted, if any. -/
def processRow (st : ParseState) (row : Row) : ParseState × Option Product :=
  if row.length < 2 then (st, none)
  else if firstColOf row = [] ∧ skuColOf row = [] then (st, none)
  else if firstColOf row ≠ [] ∧ skuColOf row = [] then
    ({ cat := pyStrip (replNl (firstColOf row)), sub := [] }, none)
  else
    let st' := if firstColOf row ≠ [] ∧ skuColOf row ≠ [] then
      { st with sub := pyStrip (replNl (firstColOf row)) } else st
    if skuColOf row ≠ [] then (st', some (mkProduct st' (skuColOf row) row)) else (st', none)

/-- The row loop over the rows after the header. -/
def processRows (st : ParseState) : List Row → List Product
  | [] => []
  | r :: rs =>
    match processRow st r with
    | (st', some p) => p :: processRows st' rs
    | (st', none) => processRows st' rs

/-- The header test of line 71. -/
def headerPred (row : Row) : Bool :=
  if 1 < row.length then
    hasSubstr "Item# / SKU".data (row.getD 1 []) || hasSubstr "Item#".data (row.getD 1 [])
  else false

/-- The `enumerate` scan of lines 69-73. -/
def findHeaderAux : Nat → List Row → Option Nat
  | _, [] => none
  | i, r :: rs => if headerPred r then some i else findHeaderAux (i + 1) rs

/-- Function `parse_clearance_csv` (lines 63-144) on the row list. -/
def parse_clearance_csv (rows : List Row) : List Product :=
  match findHeaderAux 0 rows with
  | none => []
  | some i => processRows ⟨[], []⟩ (rows.drop (i + 1))

/-- The clearance tab of the output document (lines 163-169). -/
structure OutputDoc where
  products : List Product
  count : Nat
deriving DecidableEq

/-- The pure core of `main` (lines 146-179): from the fetch result
(`none` for a failed fetch or falsy empty content) to the exit code and
the document written, if any. -/
def mainRun : Option (List Row) → Nat × Option OutputDoc
  | none => (1, none)
  | some rows =>
    let ps := parse_clearance_csv rows
    (0, some { products := ps, count := ps.length })

/-- Python list indexing `row[i]`: raises (models `IndexError`) out of
range. -/
def pyGet (row : Row) (i : Nat) : Except Unit Str :=
  if h : i < row.length then .ok (row.get ⟨i, h⟩) else .error ()

/-- Python `row[i].strip() if len(row) > i else ""`, with fallible indexing. -/
def colStrE (row : Row) (i : Nat) : Except Unit Str :=
  if i < row.length then do
    let c ← pyGet row i
    pure (pyStrip c)
  else pure []

/-- Python `row[i] if len(row) > i else "0"`, with fallible indexing. -/
def colCellE (row : Row) (i : Nat) : Except Unit Str :=
  if i < row.length then pyGet row i else pure ['0']

/-- The spec-URL filter with fallible indexing. -/
def specUrlE (row : Row) : Except Unit Str :=
  if 11 < row.length then
    pyGet row 11 >>= fun c =>
      if pyStrip c ≠ [] ∧ pyStrip c ≠ "#N/A".data ∧ "http".data.isPrefixOf (pyStrip c) then
        pure (pyStrip c)
      else pure []
  else pure []

/-- The product dict with fallible indexing. -/
def mkProductE (st : ParseState) (sku : Str) (row : Row) : Except Unit Product := do
  let su ← specUrlE row
  let de ← colStrE row 2
  let wa ← colStrE row 3
  let onC ← colCellE row 4
  let loC ← colCellE row 5
  let phC ← colCellE row 6
  let daC ← colCellE row 7
  let chC ← colCellE row 8
  let toC ← colCellE row 9
  let no ← colStrE row 10
  pure { sku := sku, description := de, wattage := wa,
         category := if st.cat ≠ [] then map_category st.cat else map_category st.sub,
         subcategory := st.sub,
         ontario := parse_int onC, louisville := parse_int loC,
         phoenix := parse_int phC, dallas := parse_int daC,
         chicago := parse_int chC, total := parse_int toC,
         notes := no, spec_url := su }

/-- The `sku_col` expression with fallible indexing: the `len(row) > 1` guard shields the
`row[1]` access. -/
def skuColE (row : Row) : Except Unit Str :=
  if 1 < row.length then
    pyGet row 1 >>= fun c1 => pure (if c1 ≠ [] then pyStrip c1 else [])
  else pure []

/-- One iteration of the row loop, with every unguarded Python indexing
operation fallible. -/
def processRowE (st : ParseState) (row : Row) : Except Unit (ParseState × Option Product) :=
  if row.length < 2 then pure (st, none)
  else
    pyGet row 0 >>= fun c0 =>
    skuColE row >>= fun sc =>
    if (if c0 = [] then [] else pyStrip c0) = [] ∧ sc = [] then pure (st, none)
    else if (if c0 = [] then [] else pyStrip c0) ≠ [] ∧ sc = [] then
      pure ({ cat := pyStrip (replNl (if c0 = [] then [] else pyStrip c0)), sub := [] }, none)
    else
      let st' := if (if c0 = [] then [] else pyStrip c0) ≠ [] ∧ sc ≠ [] then
        { st with sub := pyStrip (replNl (if c0 = [] then [] else pyStrip c0)) } else st
      if sc ≠ [] then mkProductE st' sc row >>= fun p => pure (st', some p)
      else pure (st', none)

/-- The row loop, with fallible indexing. -/
def processRowsE (st : ParseState) : List Row → Except Unit (List Product)
  | [] => pure []
  | r :: rs => do
    let sp ← processRowE st r
    let rest ← processRowsE sp.1 rs
    match sp.2 with
    | some p => pure (p :: rest)
    | none => pure rest

/-- The header test with fallible indexing (`str(row[1])` is guarded by
`len(row) > 1` in the source). -/
def headerPredE (row : Row) : Except Unit Bool :=
  if 1 < row.length then do
    let c ← pyGet row 1
    pure (hasSubstr "Item# / SKU".data c || hasSubstr "Item#".data c)
  else pure false

/-- The header scan with fallible indexing. -/
def findHeaderAuxE : Nat → List Row → Except Unit (Option Nat)
  | _, [] => pure none
  | i, r :: rs => do
    let b ← headerPredE r
    if b then pure (some i) else findHeaderAuxE (i + 1) rs

/-- Function `parse_clearance_csv` with every Python indexing operation fallible:
an `.error` value would mean the Python function raises. -/
def parseE (rows : List Row) : Except Unit (List Product) := do
  let h ← findHeaderAuxE 0 rows
  match h with
  | none => pure []
  | some i => processRowsE ⟨[], []⟩ (rows.drop (i + 1))

/-- The csv module's default field-size limit, `csv.field_size_limit()`:
the reader raises `_csv.Error` as soon as one field grows past it. -/
def FIELD_SIZE_LIMIT : Nat := 131072

/-- One record of the csv default dialect, on its quote-free fragment:
fields are the comma-separated segments. -/
def splitComma : Str → List Str
  | [] => [[]]
  | c :: t =>
    if c = ',' then [] :: splitComma t
    else (c :: (splitComma t).headD []) :: (splitComma t).tail

/-- Record boundaries of `csv.reader` over `StringIO` on the quote- and
carriage-return-free fragment: records are the newline-separated
segments, one trailing newline terminates the last record and adds no
empty record. -/
def splitLines : Str → List Str
  | [] => []
  | c :: t =>
    if c = '\n' then [] :: splitLines t
    else
      match splitLines t with
      | [] => [[c]]
      | l :: ls => (c :: l) :: ls

/-- One parsed record: the csv reader yields a blank line as the empty
row, any other line as its comma-separated fields. -/
def parseRecord (line : Str) : Row :=
  if line = [] then [] else splitComma line

/-- The value of `list(csv.reader(StringIO(csv_content)))` (lines 65-66)
on the quote- and carriage-return-free fragment of the default dialect. -/
def csvRows (content : Str) : List Row :=
  (splitLines content).map parseRecord

/-- The reading stage of lines 65-66 with its error path: iterating the
reader raises `_csv.Error` (field larger than field limit) when a field
exceeds `FIELD_SIZE_LIMIT` characters, and nothing in
`parse_clearance_csv` catches it. -/
def csvReadE (content : Str) : Except Unit (List Row) :=
  if (csvRows content).all (fun row => row.all fun f => f.length ≤ FIELD_SIZE_LIMIT) then
    .ok (csvRows content)
  else .error ()

/-- Whole `parse_clearance_csv` from the raw string (lines 63-144): the
csv reading stage, then the row loop, every fallible step explicit. -/
def parse_clearance_csvE (content : Str) : Except Unit (List Product) :=
  csvReadE content >>= parseE

/-! ## String helper lemmas -/

theorem dropWhile_self (p : Char → Bool) (l : Str) :
    (l.dropWhile p).dropWhile p = l.dropWhile p := by
  induction l with
  | nil => rfl
  | cons c t ih =>
    by_cases hc : p c <;> simp [List.dropWhile_cons, hc, ih]

theorem dropTrail_cons (c : Char) (t : Str) :
    dropTrail (c :: t) =
      if dropTrail t = [] then (if pySpace c then [] else [c]) else c :: dropTrail t := rfl

theorem dropTrail_self (l : Str) : dropTrail (dropTrail l) = dropTrail l := by
  induction l with
  | nil => rfl
  | cons c t ih =>
    rw [dropTrail_cons]
    by_cases h : dropTrail t = []
    · rw [if_pos h]
      by_cases hc : pySpace c
      · rw [if_pos hc]; rfl
      · rw [if_neg hc, dropTrail_cons]
        have hnil : dropTrail ([] : Str) = [] := rfl
        rw [if_pos hnil, if_neg hc]
    · rw [if_neg h, dropTrail_cons, ih, if_neg h]

theorem dropWhile_dropTrail (l : Str) (h : l.dropWhile pySpace = l) :
    (dropTrail l).dropWhile pySpace = dropTrail l := by
  cases l with
  | nil => rfl
  | cons c t =>
    have hc : pySpace c = false := by
      by_cases hc : pySpace c
      · exfalso
        rw [List.dropWhile_cons, if_pos hc] at h
        have h1 := (List.dropWhile_sublist (l := t) pySpace).length_le
        have h2 := congrArg List.length h
        simp at h2
        omega
      · simpa using hc
    rw [dropTrail_cons]
    by_cases hdt : dropTrail t = []
    · rw [if_pos hdt]
      by_cases hs : pySpace c <;> simp [hs, List.dropWhile_cons, hc]
    · rw [if_neg hdt]
      simp [List.dropWhile_cons, hc]

theorem pyStrip_idem (l : Str) : pyStrip (pyStrip l) = pyStrip l := by
  unfold pyStrip
  rw [dropWhile_dropTrail _ (dropWhile_self pySpace l), dropTrail_self]

theorem pySpace_nlToSp (c : Char) : pySpace (nlToSp c) = pySpace c := by
  by_cases h : c = '\n'
  · subst h; decide
  · simp [nlToSp, h]

theorem dropWhile_map_nl (l : Str) :
    (l.map nlToSp).dropWhile pySpace = (l.dropWhile pySpace).map nlToSp := by
  induction l with
  | nil => rfl
  | cons c t ih =>
    by_cases hc : pySpace c <;>
      simp [List.dropWhile_cons, pySpace_nlToSp, hc, ih]

theorem dropTrail_map_nl (l : Str) :
    dropTrail (l.map nlToSp) = (dropTrail l).map nlToSp := by
  induction l with
  | nil => rfl
  | cons c t ih =>
    cases h : dropTrail t with
    | nil =>
      by_cases hc : pySpace c <;>
        simp [dropTrail, h, ih, pySpace_nlToSp, hc]
    | cons d u =>
      simp [dropTrail, h, ih, pySpace_nlToSp]

theorem pyStrip_replNl (l : Str) : pyStrip (replNl l) = replNl (pyStrip l) := by
  unfold pyStrip replNl
  rw [dropWhile_map_nl, dropTrail_map_nl]

theorem pyStrip_replNl_pyStrip (l : Str) :
    pyStrip (replNl (pyStrip l)) = pyStrip (replNl l) := by
  rw [← pyStrip_replNl]
  exact pyStrip_idem _

theorem strip_replNl_firstCol (row : Row) :
    pyStrip (replNl (firstColOf row)) = pyStrip (replNl (row.headD [])) := by
  unfold firstColOf
  by_cases h : row.headD [] = ([] : Str)
  · rw [if_pos h, h]
  · rw [if_neg h, pyStrip_replNl_pyStrip]

/-! ## `parse_int` helper lemmas -/

theorem parse_int_eq (s : Str) : parse_int s = (pyInt? (cleanStr s)).getD 0 := by
  unfold parse_int
  by_cases h : s = ([] : Str)
  · subst h; rfl
  · rw [if_neg h]
    cases pyInt? (cleanStr s) <;> rfl

theorem parse_int_of_none (s : Str) (h : pyInt? (cleanStr s) = none) : parse_int s = 0 := by
  rw [parse_int_eq, h]; rfl

theorem digitVal_digitOf (d : Nat) (h : d < 10) : digitVal (digitOf d) = d := by
  interval_cases d <;> decide

theorem isDigitC_digitOf (d : Nat) (h : d < 10) : isDigitC (digitOf d) = true := by
  interval_cases d <;> decide

theorem natToDigits_ne_nil (n : Nat) : natToDigits n ≠ [] := by
  rw [natToDigits]
  split <;> simp

theorem natToDigits_all_digits (n : Nat) : (natToDigits n).all isDigitC = true := by
  induction n using Nat.strong_induction_on with
  | _ n ih =>
    rw [natToDigits]
    split
    · next h => simp [isDigitC_digitOf n h]
    · next h =>
      have hlt : n / 10 < n := Nat.div_lt_self (by omega) (by omega)
      simp [List.all_append, ih _ hlt, isDigitC_digitOf (n % 10) (Nat.mod_lt _ (by omega))]

theorem digitsToNat_append (l : Str) (c : Char) :
    digitsToNat (l ++ [c]) = 10 * digitsToNat l + digitVal c := by
  simp [digitsToNat, List.foldl_append]

theorem digitsToNat_natToDigits (n : Nat) : digitsToNat (natToDigits n) = n := by
  induction n using Nat.strong_induction_on with
  | _ n ih =>
    rw [natToDigits]
    split
    · next h =>
      simp [digitsToNat, digitVal_digitOf n h]
    · next h =>
      have hlt : n / 10 < n := Nat.div_lt_self (by omega) (by omega)
      rw [digitsToNat_append, ih _ hlt, digitVal_digitOf (n % 10) (Nat.mod_lt _ (by omega))]
      omega

theorem digits?_natToDigits (n : Nat) : digits? (natToDigits n) = some n := by
  rw [digits?, if_pos ⟨natToDigits_ne_nil n, natToDigits_all_digits n⟩, digitsToNat_natToDigits]

theorem stripped_false_of_digit (c : Char) (h : isDigitC c = true) : stripped c = false := by
  cases hs : stripped c
  · rfl
  · exfalso
    have hcs := hs
    simp only [stripped, pySpace, Bool.or_eq_true, decide_eq_true_eq] at hcs
    rcases hcs with h1 | ((((h1 | h1) | h1) | h1) | h1) | h1 <;> subst h1 <;>
      exact absurd h (by decide)

theorem cleanStr_natToDigits (n : Nat) : cleanStr (natToDigits n) = natToDigits n := by
  unfold cleanStr
  rw [List.filter_eq_self]
  intro c hc
  have hd : isDigitC c = true := by
    have := natToDigits_all_digits n
    rw [List.all_eq_true] at this
    exact this c hc
  simp [stripped_false_of_digit c hd]

theorem not_sign_of_digit (c : Char) (h : isDigitC c = true) : c ≠ '-' ∧ c ≠ '+' := by
  constructor <;> intro h1 <;> subst h1 <;> exact absurd h (by decide)

theorem pyInt?_natToDigits (n : Nat) : pyInt? (natToDigits n) = some (n : Int) := by
  cases h : natToDigits n with
  | nil => exact absurd h (natToDigits_ne_nil n)
  | cons c rest =>
    have hall := natToDigits_all_digits n
    rw [h, List.all_cons, Bool.and_eq_true] at hall
    have hsign := not_sign_of_digit c hall.1
    rw [pyInt?, if_neg hsign.1, if_neg hsign.2, ← h, digits?_natToDigits]
    rfl

theorem parse_int_intToStr (i : Int) : parse_int (intToStr i) = i := by
  unfold intToStr
  by_cases h : i < 0
  · rw [if_pos h, parse_int_eq]
    have hclean : cleanStr ('-' :: natToDigits i.natAbs) = '-' :: natToDigits i.natAbs := by
      unfold cleanStr
      rw [List.filter_cons]
      have : stripped '-' = false := by decide
      simp only [this, Bool.not_false, if_pos]
      rw [show List.filter (fun c => !stripped c) (natToDigits i.natAbs) =
            cleanStr (natToDigits i.natAbs) from rfl, cleanStr_natToDigits]
    rw [hclean]
    have : pyInt? ('-' :: natToDigits i.natAbs) = some (-(i.natAbs : Int)) := by
      rw [pyInt?, if_pos rfl, digits?_natToDigits]
      rfl
    rw [this]
    simp only [Option.getD_some]
    omega
  · rw [if_neg h, parse_int_eq, cleanStr_natToDigits, pyInt?_natToDigits]
    simp only [Option.getD_some]
    omega

/-! ## First-match lemmas for `find?` -/

theorem find?_of_take_all_neg {α : Type} (p : α → Bool) :
    ∀ (l : List α) (i : Nat) (h : i < l.length),
      ((l.take i).all fun a => !p a) = true → p (l.get ⟨i, h⟩) = true →
      l.find? p = some (l.get ⟨i, h⟩) := by
  intro l
  induction l with
  | nil => intro i h; simp at h
  | cons a t ih =>
    intro i h hall hp
    cases i with
    | zero =>
      simp only [List.get] at hp ⊢
      rw [List.find?_cons_of_pos _ hp]
    | succ n =>
      rw [List.take_succ_cons, List.all_cons, Bool.and_eq_true] at hall
      have ha : p a = false := by
        rcases hall.1 with _
        simp only [Bool.not_eq_true'] at hall
        exact hall.1
      rw [List.find?_cons_of_neg _ (by simp [ha])]
      exact ih n (by simpa using h) hall.2 hp

/-! ## `processRow` branch lemmas -/

theorem processRow_skip_short (st : ParseState) (row : Row) (h : row.length < 2) :
    processRow st row = (st, none) := by
  rw [processRow, if_pos h]

theorem processRow_skip_blank (st : ParseState) (row : Row) (h2 : ¬ row.length < 2)
    (hfc : firstColOf row = []) (hsc : skuColOf row = []) :
    processRow st row = (st, none) := by
  rw [processRow, if_neg h2]
  simp only [hfc, hsc, and_self, if_pos]

theorem processRow_header (st : ParseState) (row : Row) (h2 : ¬ row.length < 2)
    (hfc : firstColOf row ≠ []) (hsc : skuColOf row = []) :
    processRow st row = (⟨pyStrip (replNl (firstColOf row)), []⟩, none) := by
  rw [processRow, if_neg h2]
  simp [hfc, hsc]

theorem processRow_subprod (st : ParseState) (row : Row) (h2 : ¬ row.length < 2)
    (hfc : firstColOf row ≠ []) (hsc : skuColOf row ≠ []) :
    processRow st row =
      ({ st with sub := pyStrip (replNl (firstColOf row)) },
       some (mkProduct { st with sub := pyStrip (replNl (firstColOf row)) } (skuColOf row) row)) := by
  rw [processRow, if_neg h2]
  simp [hfc, hsc]

theorem processRow_skuonly (st : ParseState) (row : Row) (h2 : ¬ row.length < 2)
    (hfc : firstColOf row = []) (hsc : skuColOf row ≠ []) :
    processRow st row = (st, some (mkProduct st (skuColOf row) row)) := by
  rw [processRow, if_neg h2]
  simp [hfc, hsc]

/-- Any emitted product is the product dict for the returned state and the
row's (non-empty) SKU column. -/
theorem processRow_emit (st : ParseState) (row : Row) (st1 : ParseState) (p : Product)
    (h : processRow st row = (st1, some p)) :
    p = mkProduct st1 (skuColOf row) row ∧ skuColOf row ≠ [] := by
  by_cases h2 : row.length < 2
  · rw [processRow_skip_short st row h2] at h
    exact absurd (congrArg Prod.snd h) (by simp)
  by_cases hsc : skuColOf row = []
  · by_cases hfc : firstColOf row = []
    · rw [processRow_skip_blank st row h2 hfc hsc] at h
      exact absurd (congrArg Prod.snd h) (by simp)
    · rw [processRow_header st row h2 hfc hsc] at h
      exact absurd (congrArg Prod.snd h) (by simp)
  · by_cases hfc : firstColOf row = []
    · rw [processRow_skuonly st row h2 hfc hsc] at h
      have h1 := congrArg Prod.fst h
      have hp := congrArg Prod.snd h
      simp only at h1 hp
      refine ⟨?_, hsc⟩
      rw [← h1]
      exact (Option.some.inj hp).symm
    · rw [processRow_subprod st row h2 hfc hsc] at h
      have h1 := congrArg Prod.fst h
      have hp := congrArg Prod.snd h
      simp only at h1 hp
      refine ⟨?_, hsc⟩
      rw [← h1]
      exact (Option.some.inj hp).symm

/-! ## Header-scan lemmas -/

theorem hasSubstr_mono (n1 n2 : Str) (hpre : n1.isPrefixOf n2 = true) :
    ∀ hay : Str, hasSubstr n2 hay = true → hasSubstr n1 hay = true := by
  intro hay
  induction hay with
  | nil =>
    simp only [hasSubstr, decide_eq_true_eq]
    intro h
    subst h
    rw [List.isPrefixOf_iff_prefix] at hpre
    simpa using List.prefix_nil.mp hpre
  | cons c t ih =>
    simp only [hasSubstr, Bool.or_eq_true]
    rintro (h | h)
    · left
      rw [List.isPrefixOf_iff_prefix] at hpre h ⊢
      exact hpre.trans h
    · right
      exact ih h

theorem findHeaderAux_eq_none (rows : List Row)
    (h : ∀ row ∈ rows, hasSubstr "Item#".data (row.getD 1 []) = false) :
    ∀ i, findHeaderAux i rows = none := by
  induction rows with
  | nil => intro i; rfl
  | cons r rs ih =>
    intro i
    have hr : headerPred r = false := by
      rw [headerPred]
      by_cases hl : 1 < r.length
      · rw [if_pos hl]
        have h2 := h r (by simp)
        have h1 : hasSubstr "Item# / SKU".data (r.getD 1 []) = false := by
          cases hx : hasSubstr "Item# / SKU".data (r.getD 1 [])
          · rfl
          · exact absurd (hasSubstr_mono "Item#".data "Item# / SKU".data (by decide) _ hx)
              (by rw [h2]; simp)
        rw [h1, h2]
        rfl
      · rw [if_neg hl]
    rw [findHeaderAux, hr]
    simp only [Bool.false_eq_true, if_false]
    exact ih (fun row hrow => h row (by simp [hrow])) (i + 1)

/-! ## The fallible embedding never raises -/

theorem exc_bind_ok {α β : Type} (a : α) (f : α → Except Unit β) :
    (Except.ok a >>= f) = f a := rfl

theorem exc_pure {α : Type} (a : α) : (pure a : Except Unit α) = Except.ok a := rfl

theorem getD_eq_get (row : Row) (i : Nat) (h : i < row.length) :
    row.getD i [] = row.get ⟨i, h⟩ := by
  rw [List.getD_eq_getElem?_getD, List.getElem?_eq_getElem h]
  rfl

theorem pyGet_of_lt (row : Row) (i : Nat) (h : i < row.length) :
    pyGet row i = .ok (row.getD i []) := by
  rw [pyGet, dif_pos h, getD_eq_get row i h]

theorem colStrE_ok (row : Row) (i : Nat) : colStrE row i = .ok (colStr row i) := by
  rw [colStrE, colStr]
  by_cases h : i < row.length
  · rw [if_pos h, if_pos h, pyGet_of_lt row i h, exc_bind_ok]
    rfl
  · rw [if_neg h, if_neg h]
    rfl

theorem colCellE_ok (row : Row) (i : Nat) :
    colCellE row i = .ok (if i < row.length then row.getD i [] else ['0']) := by
  rw [colCellE]
  by_cases h : i < row.length
  · rw [if_pos h, if_pos h, pyGet_of_lt row i h]
  · rw [if_neg h, if_neg h]
    rfl

theorem specUrlE_ok (row : Row) : specUrlE row = .ok (specUrlOf row) := by
  rw [specUrlE, specUrlOf]
  by_cases h : 11 < row.length
  · rw [if_pos h, if_pos h, pyGet_of_lt row 11 h, exc_bind_ok]
    split_ifs <;> rfl
  · rw [if_neg h, if_neg h]
    rfl

theorem mkProductE_ok (st : ParseState) (sku : Str) (row : Row) :
    mkProductE st sku row = .ok (mkProduct st sku row) := by
  rw [mkProductE, specUrlE_ok, exc_bind_ok, colStrE_ok, exc_bind_ok, colStrE_ok, exc_bind_ok,
      colCellE_ok row 4, exc_bind_ok, colCellE_ok row 5, exc_bind_ok,
      colCellE_ok row 6, exc_bind_ok, colCellE_ok row 7, exc_bind_ok,
      colCellE_ok row 8, exc_bind_ok, colCellE_ok row 9, exc_bind_ok,
      colStrE_ok, exc_bind_ok]
  rfl

theorem skuColE_ok (row : Row) : skuColE row = .ok (skuColOf row) := by
  rw [skuColE, skuColOf]
  by_cases h1 : 1 < row.length
  · rw [if_pos h1, pyGet_of_lt row 1 h1, exc_bind_ok, exc_pure]
    exact congrArg Except.ok (if_congr ⟨fun h => ⟨h1, h⟩, fun h => h.2⟩ rfl rfl)
  · rw [if_neg h1, if_neg (fun hq : 1 < row.length ∧ _ => h1 hq.1), exc_pure]

theorem processRowE_ok (st : ParseState) (row : Row) :
    processRowE st row = .ok (processRow st row) := by
  by_cases h2 : row.length < 2
  · rw [processRowE, processRow, if_pos h2, if_pos h2]
    rfl
  · have h0 : 0 < row.length := by omega
    have hhead : row.getD 0 [] = row.headD [] := by
      cases row <;> rfl
    have hfc : (if row.getD 0 [] = [] then [] else pyStrip (row.getD 0 [])) = firstColOf row := by
      rw [firstColOf, hhead]
    rw [processRowE, processRow, if_neg h2, if_neg h2, pyGet_of_lt row 0 h0, exc_bind_ok,
        skuColE_ok, exc_bind_ok, hfc]
    split_ifs <;> simp only [mkProductE_ok, exc_bind_ok, exc_pure]

theorem processRowsE_ok (l : List Row) : ∀ st, processRowsE st l = .ok (processRows st l) := by
  induction l with
  | nil => intro st; rfl
  | cons r rs ih =>
    intro st
    rw [processRowsE, processRows, processRowE_ok, exc_bind_ok]
    cases hp : processRow st r with
    | mk st' p? =>
      cases p? <;> simp [ih st', exc_bind_ok, exc_pure]

theorem headerPredE_ok (row : Row) : headerPredE row = .ok (headerPred row) := by
  rw [headerPredE, headerPred]
  by_cases h : 1 < row.length
  · rw [if_pos h, if_pos h, pyGet_of_lt row 1 h]
    rfl
  · rw [if_neg h, if_neg h]
    rfl

theorem findHeaderAuxE_ok (rows : List Row) :
    ∀ i, findHeaderAuxE i rows = .ok (findHeaderAux i rows) := by
  induction rows with
  | nil => intro i; rfl
  | cons r rs ih =>
    intro i
    rw [findHeaderAuxE, findHeaderAux, headerPredE_ok, exc_bind_ok]
    by_cases h : headerPred r = true
    · rw [if_pos h, if_pos h]
      rfl
    · rw [if_neg h, if_neg h, ih (i + 1)]

theorem parseE_ok (rows : List Row) : parseE rows = .ok (parse_clearance_csv rows) := by
  rw [parseE, parse_clearance_csv, findHeaderAuxE_ok, exc_bind_ok]
  cases findHeaderAux 0 rows with
  | none => rfl
  | some i => exact processRowsE_ok _ _

/-! ## Remaining structural lemmas -/

theorem processRows_sku_ne_nil (l : List Row) :
    ∀ st p, p ∈ processRows st l → p.sku ≠ [] := by
  induction l with
  | nil => intro st p h; simp [processRows] at h
  | cons r rs ih =>
    intro st p h
    rw [processRows] at h
    cases hp : processRow st r with
    | mk st' p? =>
      rw [hp] at h
      cases p? with
      | none => exact ih st' p h
      | some q =>
        simp only [List.mem_cons] at h
        rcases h with h | h
        · subst h
          have he := processRow_emit st r st' p hp
          rw [he.1, mkProduct]
          exact he.2
        · exact ih st' p h

theorem colNum_absent (row : Row) (i : Nat) (h : ¬ i < row.length) : colNum row i = 0 := by
  rw [colNum, if_neg h]
  decide

theorem colNum_unparseable (row : Row) (i : Nat)
    (h : pyInt? (cleanStr (row.getD i [])) = none) : colNum row i = 0 := by
  rw [colNum]
  by_cases hl : i < row.length
  · rw [if_pos hl]
    exact parse_int_of_none _ h
  · rw [if_neg hl]
    decide

/-! ## Concrete inputs used by witnesses and the counterexample -/

/-- A sheet whose product row carries `-1` in the Ontario column. -/
def c5rows : List Row :=
  [[[], "Item#".data], ["Widget".data, "SKU-1".data, [], [], "-1".data]]

/-- A two-cell subcategory+product row. -/
def w5row : Row := [['A'], ['S']]

/-- A row whose spec-URL column holds the `#N/A` marker. -/
def w6row : Row :=
  [['A'], ['S'], [], [], [], [], [], [], [], [], [], "#N/A".data]

/-- A sheet with no header marker anywhere. -/
def w7rows : List Row := [[['a'], ['b']]]

/-- A sheet with a header row and one product row. -/
def w9rows : List Row := [[[], "Item#".data], [['A'], ['S']]]

/-- A sheet exercising the fallible embedding. -/
def w10rows : List Row :=
  [["x".data, "Item# / SKU".data],
   [[], "S9".data, [], [], [], [], [], [], [], [], [], "http://a".data]]

/-! ## The claims -/

/-- Claim C1: `map_category X` iterates the category alias mapping in its
fixed declared order and returns the canonical name of the first alias
whose text occurs as a case-insensitive substring of `X`; if no alias
matches, it returns `X` unchanged. -/
theorem map_category_first_match (X : Str) :
    (∀ i, (h : i < CATEGORY_MAP.length) →
      ((CATEGORY_MAP.take i).all fun kv => !aliasMatches kv.1 X) = true →
      aliasMatches (CATEGORY_MAP.get ⟨i, h⟩).1 X = true →
      map_category X = (CATEGORY_MAP.get ⟨i, h⟩).2)
    ∧ ((CATEGORY_MAP.all fun kv => !aliasMatches kv.1 X) = true → map_category X = X) := by
  constructor
  · intro i h hall hp
    rw [map_category,
      find?_of_take_all_neg (fun kv => aliasMatches kv.1 X) CATEGORY_MAP i h hall hp]
  · intro hall
    have hn : CATEGORY_MAP.find? (fun kv => aliasMatches kv.1 X) = none := by
      rw [List.find?_eq_none]
      intro x hx
      rw [List.all_eq_true] at hall
      have h2 := hall x hx
      simp only [Bool.not_eq_true'] at h2
      simp [h2]
    rw [map_category, hn]

/-- Witness for C1: the alias `AL2` (declared second) matches `AL2-100`
while the earlier alias does not, and an unmatched label maps to itself. -/
theorem map_category_first_match_w :
    map_category "AL2-100".data = "Area Light".data ∧
    map_category "zzz".data = "zzz".data :=
  ⟨(map_category_first_match "AL2-100".data).1 1 (by decide) (by decide) (by decide),
   (map_category_first_match "zzz".data).2 (by decide)⟩

/-- Claim C2: a category header row (non-empty trimmed first cell, empty
trimmed SKU cell) sets the category to the first cell with newlines
collapsed and trimmed, resets the subcategory to empty and emits nothing;
consequently a header row at `i`, a category row `Area Lights` at `i + 1`
and a product row with SKU `AL2-100` at `i + 2` yield a first product with
category `Area Light` and empty subcategory. -/
theorem category_header_row :
    (∀ st row, ¬ row.length < 2 → firstColOf row ≠ [] → skuColOf row = [] →
      processRow st row = (⟨pyStrip (replNl (row.headD [])), []⟩, none))
    ∧ (∀ rows i r1 r2 rest, findHeaderAux 0 rows = some i →
        rows.drop (i + 1) = r1 :: r2 :: rest →
        ¬ r1.length < 2 → firstColOf r1 = "Area Lights".data → skuColOf r1 = [] →
        ¬ r2.length < 2 → firstColOf r2 = [] → skuColOf r2 = "AL2-100".data →
        ∃ p tail, parse_clearance_csv rows = p :: tail ∧
          p.sku = "AL2-100".data ∧ p.category = "Area Light".data ∧
          p.subcategory = []) := by
  constructor
  · intro st row h2 hfc hsc
    rw [processRow_header st row h2 hfc hsc, strip_replNl_firstCol]
  · intro rows i r1 r2 rest hfind hdrop h1len hfc1 hsc1 h2len hfc2 hsc2
    have hfc1' : firstColOf r1 ≠ [] := by rw [hfc1]; decide
    have hsc2' : skuColOf r2 ≠ [] := by rw [hsc2]; decide
    have hr1 := processRow_header ⟨[], []⟩ r1 h1len hfc1' hsc1
    rw [hfc1] at hr1
    have hstrip : pyStrip (replNl ("Area Lights".data)) = "Area Lights".data := by decide
    rw [hstrip] at hr1
    have hr2 := processRow_skuonly ⟨"Area Lights".data, []⟩ r2 h2len hfc2 hsc2'
    rw [hsc2] at hr2
    refine ⟨mkProduct ⟨"Area Lights".data, []⟩ "AL2-100".data r2,
      processRows ⟨"Area Lights".data, []⟩ rest, ?_, rfl, ?_, rfl⟩
    · simp only [parse_clearance_csv, hfind, hdrop]
      simp only [processRows, hr1, hr2]
    · show (if ("Area Lights".data : Str) ≠ [] then map_category "Area Lights".data
        else map_category []) = "Area Light".data
      decide

/-- Witness for C2: a concrete three-row sheet with header, category row
`Area Lights` and product row `AL2-100`. -/
theorem category_header_row_w :
    processRow ⟨['x'], ['y']⟩ ["Area Lights".data, []] =
      (⟨pyStrip (replNl (["Area Lights".data, ([] : Str)].headD [])), []⟩, none) ∧
    ∃ p tail,
      parse_clearance_csv [[[], "Item#".data], ["Area Lights".data, []], [[], "AL2-100".data]] =
        p :: tail ∧
      p.sku = "AL2-100".data ∧ p.category = "Area Light".data ∧ p.subcategory = [] :=
  ⟨category_header_row.1 ⟨['x'], ['y']⟩ ["Area Lights".data, []]
      (by decide) (by decide) (by decide),
   category_header_row.2 [[[], "Item#".data], ["Area Lights".data, []], [[], "AL2-100".data]]
      0 ["Area Lights".data, []] [[], "AL2-100".data] []
      (by decide) (by decide) (by decide) (by decide) (by decide)
      (by decide) (by decide) (by decide)⟩

/-- Claim C3: a subcategory+product row immediately followed by a
SKU-only row emits two products sharing the same subcategory, the
newline-collapsed trimmed first cell of the earlier row. -/
theorem subcategory_shared (st : ParseState) (r1 r2 : Row) (rest : List Row)
    (h1 : ¬ r1.length < 2) (hfc1 : firstColOf r1 ≠ []) (hsc1 : skuColOf r1 ≠ [])
    (h2 : ¬ r2.length < 2) (hfc2 : firstColOf r2 = []) (hsc2 : skuColOf r2 ≠ []) :
    ∃ p1 p2 tail, processRows st (r1 :: r2 :: rest) = p1 :: p2 :: tail ∧
      p1.subcategory = pyStrip (replNl (r1.headD [])) ∧
      p2.subcategory = p1.subcategory := by
  have hr1 := processRow_subprod st r1 h1 hfc1 hsc1
  have hr2 := processRow_skuonly { st with sub := pyStrip (replNl (firstColOf r1)) } r2 h2 hfc2 hsc2
  refine ⟨mkProduct { st with sub := pyStrip (replNl (firstColOf r1)) } (skuColOf r1) r1,
    mkProduct { st with sub := pyStrip (replNl (firstColOf r1)) } (skuColOf r2) r2,
    processRows { st with sub := pyStrip (replNl (firstColOf r1)) } rest, ?_, ?_, rfl⟩
  · simp only [processRows, hr1, hr2]
  · show pyStrip (replNl (firstColOf r1)) = pyStrip (replNl (r1.headD []))
    exact strip_replNl_firstCol r1

/-- Witness for C3: a concrete subcategory+product row followed by a
SKU-only row. -/
theorem subcategory_shared_w :
    ∃ p1 p2 tail,
      processRows ⟨[], []⟩ [["Sub A".data, "S1".data], [[], "S2".data]] = p1 :: p2 :: tail ∧
      p1.subcategory = pyStrip (replNl (["Sub A".data, "S1".data].headD ([] : Str))) ∧
      p2.subcategory = p1.subcategory :=
  subcategory_shared ⟨[], []⟩ ["Sub A".data, "S1".data] [[], "S2".data] []
    (by decide) (by decide) (by decide) (by decide) (by decide) (by decide)

/-- Claim C4: `parse_int` strips commas and whitespace and parses the
remainder as an integer, yielding 0 on any failure; in particular on
`"1,234"`, `""`, `"abc"` and `"  42 "`. -/
theorem parse_int_spec :
    (∀ s : Str, parse_int s = (pyInt? (cleanStr s)).getD 0)
    ∧ parse_int "1,234".data = 1234 ∧ parse_int "".data = 0
    ∧ parse_int "abc".data = 0 ∧ parse_int "  42 ".data = 42 :=
  ⟨parse_int_eq, by decide, by decide, by decide, by decide⟩

/-- Counterexample to C5 as stated: a product row whose Ontario cell reads
`-1` is emitted with the negative quantity `-1`, so the location
quantities are not always non-negative. -/
theorem qty_nonneg_cex :
    (parse_clearance_csv c5rows).map Product.ontario = [-1] ∧
    ¬ (∀ p ∈ parse_clearance_csv c5rows, 0 ≤ p.ontario) := by
  decide

/-- Claim C5 as amended: every emitted product's five location quantities
and total are integers defaulting to 0 when the corresponding column is
absent or unparseable (a signed cell such as `-1` is kept as is, so
non-negativity is not guaranteed). -/
theorem qty_default_zero (st : ParseState) (row : Row) (st1 : ParseState) (p : Product)
    (h : processRow st row = (st1, some p)) :
    ((¬ 4 < row.length → p.ontario = 0) ∧
      (pyInt? (cleanStr (row.getD 4 [])) = none → p.ontario = 0))
    ∧ ((¬ 5 < row.length → p.louisville = 0) ∧
      (pyInt? (cleanStr (row.getD 5 [])) = none → p.louisville = 0))
    ∧ ((¬ 6 < row.length → p.phoenix = 0) ∧
      (pyInt? (cleanStr (row.getD 6 [])) = none → p.phoenix = 0))
    ∧ ((¬ 7 < row.length → p.dallas = 0) ∧
      (pyInt? (cleanStr (row.getD 7 [])) = none → p.dallas = 0))
    ∧ ((¬ 8 < row.length → p.chicago = 0) ∧
      (pyInt? (cleanStr (row.getD 8 [])) = none → p.chicago = 0))
    ∧ ((¬ 9 < row.length → p.total = 0) ∧
      (pyInt? (cleanStr (row.getD 9 [])) = none → p.total = 0)) := by
  have hp := (processRow_emit st row st1 p h).1
  rw [hp]
  exact ⟨⟨colNum_absent row 4, colNum_unparseable row 4⟩,
    ⟨colNum_absent row 5, colNum_unparseable row 5⟩,
    ⟨colNum_absent row 6, colNum_unparseable row 6⟩,
    ⟨colNum_absent row 7, colNum_unparseable row 7⟩,
    ⟨colNum_absent row 8, colNum_unparseable row 8⟩,
    ⟨colNum_absent row 9, colNum_unparseable row 9⟩⟩

/-- Witness for C5 (amended): a two-cell product row has every quantity
column absent, so its Ontario quantity is 0. -/
theorem qty_default_zero_w :
    (mkProduct ⟨[], ['A']⟩ ['S'] w5row).ontario = 0 :=
  (qty_default_zero ⟨[], []⟩ w5row ⟨[], ['A']⟩
    (mkProduct ⟨[], ['A']⟩ ['S'] w5row) (by decide)).1.1 (by decide)

/-- Claim C6: every emitted product's `spec_url` is empty or starts with
`http`; the column-11 value is kept only when the cell exists, trims
non-empty, is not the literal `#N/A` and starts with `http`; in
particular a `#N/A` cell yields an empty `spec_url`. -/
theorem spec_url_inv (st : ParseState) (row : Row) (st1 : ParseState) (p : Product)
    (h : processRow st row = (st1, some p)) :
    (p.spec_url = [] ∨ "http".data.isPrefixOf p.spec_url = true)
    ∧ (pyStrip (row.getD 11 []) = "#N/A".data → p.spec_url = [])
    ∧ (¬ 11 < row.length → p.spec_url = [])
    ∧ (11 < row.length → pyStrip (row.getD 11 []) ≠ [] →
        pyStrip (row.getD 11 []) ≠ "#N/A".data →
        "http".data.isPrefixOf (pyStrip (row.getD 11 [])) = true →
        p.spec_url = pyStrip (row.getD 11 [])) := by
  have hp := (processRow_emit st row st1 p h).1
  rw [hp]
  show (specUrlOf row = [] ∨ "http".data.isPrefixOf (specUrlOf row) = true) ∧ _ ∧ _ ∧ _
  refine ⟨?_, ?_, ?_, ?_⟩
  · rw [specUrlOf]
    split_ifs with h1 h2
    · exact Or.inr h2.2.2
    · exact Or.inl rfl
    · exact Or.inl rfl
  · intro hna
    show specUrlOf row = []
    rw [specUrlOf]
    split_ifs with h1 h2
    · exact absurd hna h2.2.1
    · rfl
    · rfl
  · intro hl
    show specUrlOf row = []
    rw [specUrlOf, if_neg hl]
  · intro hl h1 h2 h3
    show specUrlOf row = pyStrip (row.getD 11 [])
    rw [specUrlOf, if_pos hl, if_pos ⟨h1, h2, h3⟩]

/-- Witness for C6: a product row whose 11th-indexed cell is `#N/A` is
emitted with an empty `spec_url`. -/
theorem spec_url_inv_w :
    (mkProduct ⟨[], ['A']⟩ ['S'] w6row).spec_url = [] :=
  (spec_url_inv ⟨[], []⟩ w6row ⟨[], ['A']⟩
    (mkProduct ⟨[], ['A']⟩ ['S'] w6row) (by decide)).2.1 (by decide)

/-- Claim C7: when no row's second cell contains `Item#`, parsing yields
the empty product list and the run still writes a document with count 0
and exits with status 0. -/
theorem header_missing_degraded (rows : List Row)
    (h : ∀ row ∈ rows, hasSubstr "Item#".data (row.getD 1 []) = false) :
    parse_clearance_csv rows = [] ∧ mainRun (some rows) = (0, some ⟨[], 0⟩) := by
  have hn := findHeaderAux_eq_none rows h 0
  constructor
  · rw [parse_clearance_csv, hn]
  · simp only [mainRun, parse_clearance_csv, hn]
    rfl

/-- Witness for C7: a one-row sheet without the header marker. -/
theorem header_missing_degraded_w :
    parse_clearance_csv w7rows = [] ∧ mainRun (some w7rows) = (0, some ⟨[], 0⟩) :=
  header_missing_degraded w7rows (by decide)

/-- Claim C8: `parse_int` is idempotent through Python `str`:
`parse_int(str(parse_int(s))) = parse_int(s)` for every string `s`. -/
theorem parse_int_idem (s : Str) : parse_int (intToStr (parse_int s)) = parse_int s :=
  parse_int_intToStr (parse_int s)

/-- Claim C9: every product emitted by `parse_clearance_csv` has a
non-empty SKU. -/
theorem sku_nonempty (rows : List Row) (p : Product)
    (h : p ∈ parse_clearance_csv rows) : p.sku ≠ [] := by
  rw [parse_clearance_csv] at h
  cases hf : findHeaderAux 0 rows with
  | none => rw [hf] at h; simp at h
  | some i => rw [hf] at h; exact processRows_sku_ne_nil _ _ p h

/-- Witness for C9: the product emitted from a concrete two-row sheet. -/
theorem sku_nonempty_w :
    (mkProduct ⟨[], ['A']⟩ ['S'] [['A'], ['S']]).sku ≠ [] :=
  sku_nonempty w9rows (mkProduct ⟨[], ['A']⟩ ['S'] [['A'], ['S']]) (by decide)

theorem exc_bind_err {α β : Type} (f : α → Except Unit β) :
    ((Except.error () : Except Unit α) >>= f) = Except.error () := rfl

theorem splitComma_no_comma :
    ∀ l : Str, (∀ c ∈ l, c ≠ ',') → splitComma l = [l] := by
  intro l
  induction l with
  | nil => intro _; rfl
  | cons c t ih =>
    intro hn
    have hc : c ≠ ',' := hn c (by simp)
    have ht := ih (fun x hx => hn x (List.mem_cons_of_mem c hx))
    rw [splitComma, if_neg hc, ht]
    rfl

theorem splitLines_no_nl :
    ∀ l : Str, l ≠ [] → (∀ c ∈ l, c ≠ '\n') → splitLines l = [l] := by
  intro l
  induction l with
  | nil => intro h _; exact absurd rfl h
  | cons c t ih =>
    intro _ hn
    have hc : c ≠ '\n' := hn c (by simp)
    cases t with
    | nil => simp [splitLines, hc]
    | cons d u =>
      have ht := ih (by simp) (fun x hx => hn x (List.mem_cons_of_mem c hx))
      rw [splitLines, if_neg hc, ht]

/-- Counterexample to C10 as stated: on the input string of 131073 `x`
characters — a single CSV field just past the csv module's field-size
limit — the function raises inside the reading stage at line 66 instead
of returning a product list. -/
theorem csv_field_limit_cex :
    parse_clearance_csvE (List.replicate 131073 'x') = .error () := by
  have hmem : ∀ c ∈ List.replicate 131073 'x', c = 'x' :=
    fun c hc => List.eq_of_mem_replicate hc
  have hne : List.replicate 131073 'x' ≠ [] := by
    intro h
    have hl := List.length_replicate 131073 'x'
    rw [h] at hl
    exact absurd hl (by decide)
  have hnl : splitLines (List.replicate 131073 'x') = [List.replicate 131073 'x'] := by
    refine splitLines_no_nl _ hne ?_
    intro c hc
    rw [hmem c hc]
    decide
  have hcm : splitComma (List.replicate 131073 'x') = [List.replicate 131073 'x'] := by
    refine splitComma_no_comma _ ?_
    intro c hc
    rw [hmem c hc]
    decide
  have hrows : csvRows (List.replicate 131073 'x') = [[List.replicate 131073 'x']] := by
    rw [csvRows, hnl]
    simp only [List.map_cons, List.map_nil, parseRecord]
    rw [if_neg hne, hcm]
  have hcond :
      ¬ (([[List.replicate 131073 'x']] : List Row).all
          (fun row => row.all fun f => f.length ≤ FIELD_SIZE_LIMIT) = true) := by
    simp only [List.all_cons, List.all_nil, Bool.and_true, decide_eq_true_eq]
    rw [List.length_replicate]
    decide
  have hread : csvReadE (List.replicate 131073 'x') = .error () := by
    rw [csvReadE, hrows, if_neg hcond]
  rw [parse_clearance_csvE, hread, exc_bind_err]

/-- Claim C10 as amended: the row-processing stage of the parser
(everything after `rows = list(csv.reader(...))`) is total: with every
Python list-indexing operation modelled as fallible, parsing any row
list returns `ok` of the guarded-defaults result (no exception escapes),
and rows shorter than two cells are skipped without effect. Totality
does not extend to every raw input string: the reading stage raises past
the csv field-size limit, per the counterexample. -/
theorem parse_never_raises :
    (∀ rows, parseE rows = Except.ok (parse_clearance_csv rows))
    ∧ (∀ st row, row.length < 2 → processRow st row = (st, none)) :=
  ⟨parseE_ok, processRow_skip_short⟩

/-- Witness for C10: the fallible parse of a concrete sheet returns `ok`,
and a one-cell row is skipped. -/
theorem parse_never_raises_w :
    parseE w10rows = Except.ok (parse_clearance_csv w10rows) ∧
    processRow ⟨[], []⟩ [['a']] = (⟨[], []⟩, none) :=
  ⟨parse_never_raises.1 w10rows, parse_never_raises.2 ⟨[], []⟩ [['a']] (by decide)⟩

end Clearance
